import Mathlib

/-!
Shallow embedding of `SoftActorCritic_PyTorch/EnvironmentTetrapodVelocidad.py`
(the MOSAC quadruped reward model) and proofs about its reward and
termination computation.

Observations are rows of real numbers (`List ℝ`); a batch is a list of
rows.  Indexing `row[j]` from the source becomes `row.getD j 0`, and the
slice `row[0:pos_size]` becomes `row.take pos_size`.  All numeric
constants are taken verbatim from `Environment.__init__`.
-/

namespace MOSAC

noncomputable section

/-- Source constant `self.__target_velocity = 0.3` -/
def target_velocity : ℝ := 0.3

/-- Source constant `self.__vmax = 1` -/
def vmax : ℝ := 1

/-- Source constant `self.__delta_vel = 0.3` -/
def delta_vel : ℝ := 0.3

/-- Source constant `self.__vmin = -2` -/
def vmin : ℝ := -2

/-- Source constant `self.__curvature_forward = -2*self.__vmax/(self.__delta_vel * self.__vmin)` -/
def curvature_forward : ℝ := -2 * vmax / (delta_vel * vmin)

/-- Source constant `self.__vmin_lat = -1` -/
def vmin_lat : ℝ := -1

/-- Source constant `self.__curvature_lateral = 3` -/
def curvature_lateral : ℝ := 3

/-- Source constant `self.__vmin_back = -0.8` -/
def vmin_back : ℝ := -0.8

/-- Source constant `self.__curvature_back = 2` -/
def curvature_back : ℝ := 2

/-- Source constant `self.__flipping_penalization = -2` -/
def flipping_penalization : ℝ := -2

/-- Source constant `self.__end_cond = 2.5` -/
def end_cond : ℝ := 2.5

/-- The per-run construction data that the reward computation actually
reads: the destination vector `dest_pos` passed to `Environment.__init__`.
`self.__pos_size = len(dest_pos)`. -/
structure Env where
  dest_pos : List ℝ

/-- Source constant `self.__pos_size = len(dest_pos)` -/
def Env.pos_size (e : Env) : ℕ := e.dest_pos.length

/-- Line 106 of the source:
`(vmax - vmin)/(curvature_forward * np.abs(target_velocity - v) + 1) + vmin`. -/
def forwardVelocityPenalty (v : ℝ) : ℝ :=
  (vmax - vmin) / (curvature_forward * |target_velocity - v| + 1) + vmin

/-- Line 114 of the source:
`-vmin_lat/(curvature_lateral * np.abs(v) + 1) + vmin_lat`. -/
def lateralVelocityPenalty (v : ℝ) : ℝ :=
  -vmin_lat / (curvature_lateral * |v| + 1) + vmin_lat

/-- Line 140 of the source:
`-vmin_back/(curvature_back * back_angle + 1) + vmin_back`. -/
def flatBackCurve (back_angle : ℝ) : ℝ :=
  -vmin_back / (curvature_back * back_angle + 1) + vmin_back

/-- One iteration of the `for j in range(5, 7)` loop (lines 134-150):
given the running reward `r`, the base reward and the normalized angle
`a = next_obs[i, j]`, compute `back_angle = |a| * π`, the flat-back
reward, the 0.5-scaled coupling with the base reward, and add the
flat-back reward itself. -/
def flatBackStep (base r a : ℝ) : ℝ :=
  let back_angle := |a| * Real.pi
  let flat_back_reward := flatBackCurve back_angle
  let r1 := if base < 0 then r - flat_back_reward * base * 0.5
            else r + flat_back_reward * base * 0.5
  r1 + flat_back_reward

/-- The accumulated reward of one row before the termination block
(lines 102-150): `reward[i]` starts at `0`,
`base_reward = forward_velocity_penalty + lateral_velocity_penalty`,
then the flat-back loop runs for `j = 5` and `j = 6`. -/
def rowReward (nx : List ℝ) : ℝ :=
  let base := forwardVelocityPenalty (nx.getD 7 0) + lateralVelocityPenalty (nx.getD 8 0)
  ([5, 6].map (fun j => nx.getD j 0)).foldl (flatBackStep base) 0

/-- Line 93 of the source:
`np.sqrt(np.sum(np.square(next_obs[:, 0:pos_size]), axis=1))` for one row. -/
def dist_fin (e : Env) (nx : List ℝ) : ℝ :=
  Real.sqrt (((nx.take e.pos_size).map (fun x => x ^ 2)).sum)

/-- One row of `__compute_reward_and_end`: the accumulated reward plus the
termination block of lines 154-164 (`if abs(next_obs[i,5]) >= 0.278 or
abs(next_obs[i,6]) >= 0.278` first, `elif dist_fin[i] >= end_cond` next). -/
def rowRewardEnd (e : Env) (nx : List ℝ) : ℝ × Bool :=
  let r := rowReward nx
  if |nx.getD 5 0| ≥ 0.278 ∨ |nx.getD 6 0| ≥ 0.278 then
    (r + flipping_penalization, true)
  else if dist_fin e nx ≥ end_cond then (r, true)
  else (r, false)

/-- Source method `Environment.__compute_reward_and_end(obs, next_obs)`: the output
arrays have `obs.shape[0]` rows; the loop body for row `i` reads only
`next_obs[i]` (velocities, angles and position slice of the next
observation). -/
def compute_reward_and_end (e : Env) (obs nxs : List (List ℝ)) :
    List ℝ × List Bool :=
  let rows := (List.range obs.length).map (fun i => nxs.getD i [])
  (rows.map (fun nx => (rowRewardEnd e nx).1),
   rows.map (fun nx => (rowRewardEnd e nx).2))

/-- Source method `Environment.compute_reward(obs)` (lines 85-87):
`reward, _ = __compute_reward_and_end(obs[0:-1], obs[1:])`. -/
def Env.compute_reward (e : Env) (obs : List (List ℝ)) : List ℝ :=
  (compute_reward_and_end e obs.dropLast obs.tail).1

/-- Source method `Environment.max_ret(obs)` (lines 171-173):
`100*np.sqrt(np.sum(np.square(obs.reshape(1,-1)[:, 0:pos_size])))`. -/
def Env.max_ret (e : Env) (obs : List ℝ) : ℝ :=
  100 * Real.sqrt (((obs.take e.pos_size).map (fun x => x ^ 2)).sum)

/-- The mutable episode state of `Environment`: the last observation
`self.__obs` and the step counter `self.__step`. -/
structure EnvState where
  obs : List ℝ
  step : ℕ

/-- Source method `Environment.reset` (lines 48-60) as a state transition: the simulator
returns a fresh observation `newObs`; the method sets `self.__step = 0`
and `self.__obs = newObs`. -/
def Env.resetState (newObs : List ℝ) : EnvState :=
  { obs := newObs, step := 0 }

/-- Source method `Environment.act` (lines 73-83) as a state transition: the simulator
returns `next_obs`; the method computes
`__compute_reward_and_end(self.__obs.reshape(1,-1), next_obs.reshape(1,-1))`,
assigns `self.__obs[:] = next_obs`, and returns
`(next_obs, reward, end)`.  `self.__step` is not touched. -/
def Env.actStep (e : Env) (s : EnvState) (next_obs : List ℝ) :
    EnvState × ℝ × Bool :=
  let re := compute_reward_and_end e [s.obs] [next_obs]
  ({ obs := next_obs, step := s.step }, re.1.getD 0 0, re.2.getD 0 false)

/-- The spec's description of one angle's flatness contribution: the
flat-back reward at `angle = |normalized| * π` is added directly, and the
base reward is rescaled by it — subtracted as `flat * base * 0.5` when the
base reward is negative, added otherwise. -/
def flatContribution (base a : ℝ) : ℝ :=
  (if base < 0 then -(flatBackCurve (|a| * Real.pi) * base * 0.5)
   else flatBackCurve (|a| * Real.pi) * base * 0.5)
    + flatBackCurve (|a| * Real.pi)

/-- The spec's verbal definition of `max_ret`: 100 times the Euclidean
distance from the observation's position (its first `pos_size`
components) to the destination position fixed at construction. -/
def max_ret_claimed (e : Env) (obs : List ℝ) : ℝ :=
  100 * Real.sqrt
    ((List.zipWith (fun x d => (x - d) ^ 2) (obs.take e.pos_size) e.dest_pos).sum)

/-! ### Helper lemmas about the saturating curve `d ↦ A / (c * d + 1)` -/

lemma satDiv_lt {A c d1 d2 : ℝ} (hA : 0 < A) (hc : 0 < c) (h0 : 0 ≤ d1)
    (h : d1 < d2) : A / (c * d2 + 1) < A / (c * d1 + 1) := by
  have hden1 : 0 < c * d1 + 1 := by nlinarith
  have hlt : c * d1 + 1 < c * d2 + 1 := by nlinarith
  exact div_lt_div_of_pos_left hA hden1 hlt

lemma satDiv_pos {A c d : ℝ} (hA : 0 < A) (hc : 0 < c) (h0 : 0 ≤ d) :
    0 < A / (c * d + 1) := by
  have hden : 0 < c * d + 1 := by nlinarith
  exact div_pos hA hden

lemma satDiv_le {A c d : ℝ} (hA : 0 < A) (hc : 0 < c) (h0 : 0 ≤ d) :
    A / (c * d + 1) ≤ A := by
  have h1 : (1 : ℝ) ≤ c * d + 1 := by nlinarith
  exact div_le_self hA.le h1

lemma curvature_forward_pos : 0 < curvature_forward := by
  norm_num [curvature_forward, vmax, delta_vel, vmin]

lemma vmax_sub_vmin_pos : 0 < vmax - vmin := by norm_num [vmax, vmin]

/-- C3: the forward-velocity term, as a function of the forward velocity
`v`, equals `(vmax - vmin)/(curvature_fwd * |target_v - v| + 1) + vmin`;
it attains its maximum `vmax` exactly when `v` equals the target velocity,
is strictly decreasing in `|target_v - v|`, is symmetric around the
target, and always lies in `[vmin, vmax]`. -/
theorem forwardVelocityPenalty_spec (v v1 v2 : ℝ)
    (hmono : |target_velocity - v1| < |target_velocity - v2|) :
    forwardVelocityPenalty v
        = (vmax - vmin) / (curvature_forward * |target_velocity - v| + 1) + vmin
      ∧ forwardVelocityPenalty target_velocity = vmax
      ∧ (v ≠ target_velocity → forwardVelocityPenalty v < vmax)
      ∧ forwardVelocityPenalty v2 < forwardVelocityPenalty v1
      ∧ forwardVelocityPenalty (target_velocity + v)
          = forwardVelocityPenalty (target_velocity - v)
      ∧ vmin ≤ forwardVelocityPenalty v ∧ forwardVelocityPenalty v ≤ vmax := by
  have hA := vmax_sub_vmin_pos
  have hc := curvature_forward_pos
  refine ⟨rfl, ?_, ?_, ?_, ?_, ?_, ?_⟩
  · unfold forwardVelocityPenalty
    rw [sub_self, abs_zero, mul_zero, zero_add, div_one]
    ring
  · intro hv
    have hd : 0 < |target_velocity - v| :=
      abs_pos.2 (sub_ne_zero.2 (Ne.symm hv))
    have h := satDiv_lt hA hc le_rfl hd
    rw [mul_zero, zero_add, div_one] at h
    unfold forwardVelocityPenalty
    linarith
  · have h := satDiv_lt hA hc (abs_nonneg (target_velocity - v1)) hmono
    unfold forwardVelocityPenalty
    linarith
  · unfold forwardVelocityPenalty
    have h1 : target_velocity - (target_velocity + v) = -v := by ring
    have h2 : target_velocity - (target_velocity - v) = v := by ring
    rw [h1, h2, abs_neg]
  · have h := satDiv_pos hA hc (abs_nonneg (target_velocity - v))
    unfold forwardVelocityPenalty
    linarith
  · have h := satDiv_le hA hc (abs_nonneg (target_velocity - v))
    unfold forwardVelocityPenalty
    linarith

/-- Witness for C3 at concrete velocities. -/
theorem forwardVelocityPenalty_spec_witness :
    forwardVelocityPenalty 0.5 < vmax
      ∧ forwardVelocityPenalty 0.4 < forwardVelocityPenalty 0.3 := by
  have h := forwardVelocityPenalty_spec 0.5 0.3 0.4 (by norm_num [target_velocity])
  exact ⟨h.2.2.1 (by norm_num [target_velocity]), h.2.2.2.1⟩

lemma neg_vmin_lat_pos : 0 < -vmin_lat := by norm_num [vmin_lat]

lemma curvature_lateral_pos : 0 < curvature_lateral := by
  norm_num [curvature_lateral]

/-- C4: the lateral-velocity term, as a function of the lateral velocity
`v_lat`, equals `-vmin_lat/(curvature_lat * |v_lat| + 1) + vmin_lat`; it is
maximal and equal to `0` at `v_lat = 0` and strictly decreases toward
`vmin_lat` (staying strictly above it) as `|v_lat|` grows. -/
theorem lateralVelocityPenalty_spec (v v1 v2 : ℝ) (hmono : |v1| < |v2|) :
    lateralVelocityPenalty v
        = -vmin_lat / (curvature_lateral * |v| + 1) + vmin_lat
      ∧ lateralVelocityPenalty 0 = 0
      ∧ (v ≠ 0 → lateralVelocityPenalty v < 0)
      ∧ lateralVelocityPenalty v2 < lateralVelocityPenalty v1
      ∧ vmin_lat < lateralVelocityPenalty v ∧ lateralVelocityPenalty v ≤ 0 := by
  have hA := neg_vmin_lat_pos
  have hc := curvature_lateral_pos
  refine ⟨rfl, ?_, ?_, ?_, ?_, ?_⟩
  · unfold lateralVelocityPenalty
    rw [abs_zero, mul_zero, zero_add, div_one]
    ring
  · intro hv
    have hd : 0 < |v| := abs_pos.2 hv
    have h := satDiv_lt hA hc le_rfl hd
    rw [mul_zero, zero_add, div_one] at h
    unfold lateralVelocityPenalty
    linarith
  · have h := satDiv_lt hA hc (abs_nonneg v1) hmono
    unfold lateralVelocityPenalty
    linarith
  · have h := satDiv_pos hA hc (abs_nonneg v)
    unfold lateralVelocityPenalty
    linarith
  · have h := satDiv_le hA hc (abs_nonneg v)
    unfold lateralVelocityPenalty
    linarith

/-- Witness for C4 at concrete lateral velocities. -/
theorem lateralVelocityPenalty_spec_witness :
    lateralVelocityPenalty 0.2 < 0
      ∧ lateralVelocityPenalty 0.1 < lateralVelocityPenalty 0 := by
  have h := lateralVelocityPenalty_spec 0.2 0 0.1 (by norm_num)
  exact ⟨h.2.2.1 (by norm_num), h.2.2.2.1⟩

/-- C1: for every transition row, the termination flag is set iff
`|roll| ≥ 0.278` or `|pitch| ≥ 0.278` (flip) or `dist_fin ≥ 2.5`
(boundary); in the flip case the flip penalty is always added to the
accumulated reward (the flip branch is checked first, so this holds even
when the distance condition also fires), and otherwise the reward is the
accumulated reward unchanged. -/
theorem rowRewardEnd_termination (e : Env) (nx : List ℝ) :
    ((rowRewardEnd e nx).2 = true ↔
        (|nx.getD 5 0| ≥ 0.278 ∨ |nx.getD 6 0| ≥ 0.278 ∨
          dist_fin e nx ≥ end_cond))
      ∧ ((|nx.getD 5 0| ≥ 0.278 ∨ |nx.getD 6 0| ≥ 0.278) →
          (rowRewardEnd e nx).1 = rowReward nx + flipping_penalization)
      ∧ (¬(|nx.getD 5 0| ≥ 0.278 ∨ |nx.getD 6 0| ≥ 0.278) →
          (rowRewardEnd e nx).1 = rowReward nx) := by
  refine ⟨?_, ?_, ?_⟩
  · simp only [rowRewardEnd]
    split_ifs with h1 h2
    · simp only [true_iff]
      exact h1.imp id Or.inl
    · simp only [true_iff]
      exact Or.inr (Or.inr h2)
    · constructor
      · intro hF
        exact absurd hF (by simp)
      · intro hR
        rcases hR with hR | hR | hR
        · exact absurd (Or.inl hR) h1
        · exact absurd (Or.inr hR) h1
        · exact absurd hR h2
  · intro h
    simp only [rowRewardEnd, if_pos h]
  · intro h
    simp only [rowRewardEnd, if_neg h]
    split_ifs <;> rfl

/-- Witness for C1: a row with roll normalized value 0.3 terminates with
the flip penalty added. -/
theorem rowRewardEnd_termination_witness :
    (rowRewardEnd ⟨[0, 0]⟩ [0, 0, 0, 0, 0, 0.3, 0, 0, 0]).2 = true
      ∧ (rowRewardEnd ⟨[0, 0]⟩ [0, 0, 0, 0, 0, 0.3, 0, 0, 0]).1
          = rowReward [0, 0, 0, 0, 0, 0.3, 0, 0, 0] + flipping_penalization := by
  have h := rowRewardEnd_termination ⟨[0, 0]⟩ [0, 0, 0, 0, 0, 0.3, 0, 0, 0]
  have h5 : (([0, 0, 0, 0, 0, (0.3 : ℝ), 0, 0, 0] : List ℝ).getD 5 0) = 0.3 := rfl
  have hflip : |(([0, 0, 0, 0, 0, (0.3 : ℝ), 0, 0, 0] : List ℝ).getD 5 0)| ≥ 0.278 := by
    rw [h5, abs_of_nonneg] <;> norm_num
  exact ⟨h.1.2 (Or.inl hflip), h.2.1 (Or.inl hflip)⟩

/-- C9: the reward and end columns depend only on the next-observation
batch and the row count of the current-observation batch. -/
theorem compute_reward_and_end_ignores_obs (e : Env)
    (obs1 obs2 nxs : List (List ℝ)) (h : obs1.length = obs2.length) :
    compute_reward_and_end e obs1 nxs = compute_reward_and_end e obs2 nxs := by
  unfold compute_reward_and_end
  rw [h]

/-- Witness for C9: two different single-row current observations give the
same output. -/
theorem compute_reward_and_end_ignores_obs_witness :
    compute_reward_and_end ⟨[0, 0]⟩ [[1, 2, 3]] [[0, 0, 0, 0, 0, 0, 0, 0, 0]]
      = compute_reward_and_end ⟨[0, 0]⟩ [[9]] [[0, 0, 0, 0, 0, 0, 0, 0, 0]] :=
  compute_reward_and_end_ignores_obs ⟨[0, 0]⟩ [[1, 2, 3]] [[9]]
    [[0, 0, 0, 0, 0, 0, 0, 0, 0]] rfl

lemma rowRewardEnd_congr_pos_size {e1 e2 : Env}
    (h : e1.pos_size = e2.pos_size) (nx : List ℝ) :
    rowRewardEnd e1 nx = rowRewardEnd e2 nx := by
  unfold rowRewardEnd dist_fin
  rw [h]

/-- C10: the destination vector never influences any computed output —
only its length (the position-slice size) matters: rewards, end flags,
`compute_reward` and `max_ret` agree for any two destinations of equal
length. -/
theorem dest_pos_no_influence (d1 d2 : List ℝ) (h : d1.length = d2.length)
    (obs nxs : List (List ℝ)) (o : List ℝ) :
    compute_reward_and_end ⟨d1⟩ obs nxs = compute_reward_and_end ⟨d2⟩ obs nxs
      ∧ Env.compute_reward ⟨d1⟩ obs = Env.compute_reward ⟨d2⟩ obs
      ∧ Env.max_ret ⟨d1⟩ o = Env.max_ret ⟨d2⟩ o := by
  have hp : (⟨d1⟩ : Env).pos_size = (⟨d2⟩ : Env).pos_size := h
  have hcre : ∀ os ns : List (List ℝ),
      compute_reward_and_end ⟨d1⟩ os ns = compute_reward_and_end ⟨d2⟩ os ns := by
    intro os ns
    unfold compute_reward_and_end
    simp only [rowRewardEnd_congr_pos_size hp]
  refine ⟨hcre obs nxs, ?_, ?_⟩
  · unfold Env.compute_reward
    rw [hcre obs.dropLast obs.tail]
  · unfold Env.max_ret
    rw [show ((⟨d1⟩ : Env).pos_size) = ((⟨d2⟩ : Env).pos_size) from hp]

/-- Witness for C10: two different 2-component destinations give identical
outputs. -/
theorem dest_pos_no_influence_witness :
    compute_reward_and_end ⟨[1, 2]⟩ [[1]] [[1]]
        = compute_reward_and_end ⟨[3, 4]⟩ [[1]] [[1]]
      ∧ Env.max_ret ⟨[1, 2]⟩ [5] = Env.max_ret ⟨[3, 4]⟩ [5] := by
  have h := dest_pos_no_influence [1, 2] [3, 4] rfl [[1]] [[1]] [5]
  exact ⟨h.1, h.2.2⟩

/-- C5: the accumulated per-row reward is exactly the sum of the roll
(index 5) and pitch (index 6) flatness contributions, each consisting of
the flat-back reward at `|normalized| * π` added directly plus the
0.5-scaled coupling with the base reward (subtracted when the base reward
is negative, added otherwise). -/
theorem rowReward_flatness (nx : List ℝ) :
    rowReward nx
      = flatContribution
          (forwardVelocityPenalty (nx.getD 7 0)
            + lateralVelocityPenalty (nx.getD 8 0)) (nx.getD 5 0)
        + flatContribution
          (forwardVelocityPenalty (nx.getD 7 0)
            + lateralVelocityPenalty (nx.getD 8 0)) (nx.getD 6 0) := by
  simp only [rowReward, flatContribution, flatBackStep, List.map_cons,
    List.map_nil, List.foldl_cons, List.foldl_nil]
  split_ifs <;> ring

lemma fv_at_target : forwardVelocityPenalty 0.3 = 1 := by
  unfold forwardVelocityPenalty target_velocity vmax vmin curvature_forward delta_vel
  norm_num

lemma lat_at_zero : lateralVelocityPenalty 0 = 0 := by
  unfold lateralVelocityPenalty vmin_lat curvature_lateral
  norm_num

lemma flatBackCurve_zero : flatBackCurve 0 = 0 := by
  unfold flatBackCurve vmin_back curvature_back
  norm_num

lemma rowReward_scenario : rowReward [0, 0, 0, 0, 0, 0, 0, 0.3, 0] = 0 := by
  simp only [rowReward, List.map_cons, List.map_nil, List.foldl_cons,
    List.foldl_nil, List.getD_cons_zero, List.getD_cons_succ]
  rw [fv_at_target, lat_at_zero]
  simp only [flatBackStep, abs_zero, zero_mul, flatBackCurve_zero]
  norm_num

lemma dist_scenario : dist_fin ⟨[0, 0]⟩ [0, 0, 0, 0, 0, 0, 0, 0.3, 0] = 0 := by
  show Real.sqrt (([(0 : ℝ), 0].map (fun x => x ^ 2)).sum) = 0
  norm_num

lemma rowRewardEnd_scenario :
    rowRewardEnd ⟨[0, 0]⟩ [0, 0, 0, 0, 0, 0, 0, 0.3, 0] = (0, false) := by
  have h5 : (([0, 0, 0, 0, 0, 0, 0, (0.3 : ℝ), 0] : List ℝ).getD 5 0) = 0 := rfl
  have h6 : (([0, 0, 0, 0, 0, 0, 0, (0.3 : ℝ), 0] : List ℝ).getD 6 0) = 0 := rfl
  simp only [rowRewardEnd, h5, h6, dist_scenario, abs_zero]
  split_ifs with h1 h2
  · exact absurd h1 (by norm_num)
  · exact absurd h2 (by norm_num [end_cond])
  · rw [rowReward_scenario]

/-- C2 counterexample: at the scenario (forward velocity exactly the
target 0.3, lateral velocity 0, roll = pitch = 0, position at origin) the
returned reward is not `2 * vmax` plus the zero lateral and flatness
contributions. -/
theorem scenario_target_velocity_counterexample :
    (rowRewardEnd ⟨[0, 0]⟩ [0, 0, 0, 0, 0, 0, 0, 0.3, 0]).1
      ≠ 2 * vmax + 2 * 0 := by
  rw [rowRewardEnd_scenario]
  norm_num [vmax]

/-- C2 amended: at that scenario the forward-velocity term attains its
maximum `vmax`, but the base reward is never added directly to the
returned reward — the returned reward is 0 (all flatness contributions
vanish at zero angles) and the terminated flag is False. -/
theorem scenario_target_velocity_amended :
    forwardVelocityPenalty 0.3 = vmax
      ∧ (rowRewardEnd ⟨[0, 0]⟩ [0, 0, 0, 0, 0, 0, 0, 0.3, 0]).1 = 0
      ∧ (rowRewardEnd ⟨[0, 0]⟩ [0, 0, 0, 0, 0, 0, 0, 0.3, 0]).2 = false := by
  refine ⟨?_, ?_, ?_⟩
  · rw [fv_at_target]
    norm_num [vmax]
  · rw [rowRewardEnd_scenario]
  · rw [rowRewardEnd_scenario]

lemma getD_tail {α : Type} (l : List α) (i : ℕ) (d : α) :
    l.tail.getD i d = l.getD (i + 1) d := by
  cases l <;> rfl

lemma compute_reward_eq (e : Env) (obs : List (List ℝ)) :
    e.compute_reward obs
      = (List.range (obs.length - 1)).map
          (fun i => (rowRewardEnd e (obs.getD (i + 1) [])).1) := by
  unfold Env.compute_reward compute_reward_and_end
  simp only [List.map_map, List.length_dropLast]
  congr 1
  funext i
  simp only [Function.comp, getD_tail]

/-- C6: for every sequence of `N + 1` observations (`N ≥ 1`),
`compute_reward` returns exactly `N` reward values, and the `i`-th reward
equals the per-step reward computation applied to the single consecutive
pair (observation `i`, observation `i + 1`). -/
theorem compute_reward_pairs (e : Env) (obs : List (List ℝ)) (N : ℕ)
    (hN : 1 ≤ N) (hlen : obs.length = N + 1) :
    (e.compute_reward obs).length = N
      ∧ ∀ i, i < N →
          (e.compute_reward obs).getD i 0
            = (compute_reward_and_end e
                [obs.getD i []] [obs.getD (i + 1) []]).1.getD 0 0 := by
  have h1 : obs.length - 1 = N := by omega
  constructor
  · rw [compute_reward_eq, List.length_map, List.length_range, h1]
  · intro i hi
    rw [compute_reward_eq, h1, List.getD_eq_getElem?_getD,
      List.getElem?_map, List.getElem?_range hi]
    rfl

/-- Witness for C6: a two-observation sequence gives one reward, equal to
the per-step computation on the pair. -/
theorem compute_reward_pairs_witness :
    (Env.compute_reward ⟨[0, 0]⟩ [[1], [2]]).length = 1
      ∧ (Env.compute_reward ⟨[0, 0]⟩ [[1], [2]]).getD 0 0
          = (compute_reward_and_end ⟨[0, 0]⟩ [[1]] [[2]]).1.getD 0 0 := by
  have h := compute_reward_pairs ⟨[0, 0]⟩ [[1], [2]] 1 le_rfl rfl
  exact ⟨h.1, h.2 0 (by norm_num)⟩

/-- C7 counterexample: with destination `[5]` and observation `[3]`,
`max_ret` returns `300` (100 times the distance to the origin), not `200`
(100 times the distance to the destination) as the claim states. -/
theorem max_ret_counterexample :
    Env.max_ret ⟨[5]⟩ [3] ≠ max_ret_claimed ⟨[5]⟩ [3] := by
  have h1 : Env.max_ret ⟨[5]⟩ [3] = 300 := by
    show 100 * Real.sqrt (([(3 : ℝ)].map (fun x => x ^ 2)).sum) = 300
    have h : (([(3 : ℝ)].map (fun x => x ^ 2)).sum) = 3 ^ 2 := by norm_num
    rw [h, Real.sqrt_sq (by norm_num)]
    norm_num
  have h2 : max_ret_claimed ⟨[5]⟩ [3] = 200 := by
    show 100 * Real.sqrt
        ((List.zipWith (fun x d => (x - d) ^ 2) [(3 : ℝ)] [5]).sum) = 200
    have h : ((List.zipWith (fun x d => (x - d) ^ 2) [(3 : ℝ)] [(5 : ℝ)]).sum)
        = 2 ^ 2 := by norm_num
    rw [h, Real.sqrt_sq (by norm_num)]
    norm_num
  rw [h1, h2]
  norm_num

/-- C7 amended: `max_ret` returns 100 times the Euclidean norm of the
observation's first `pos_size` components (its distance to the origin);
the destination's values do not enter, only its length. -/
theorem max_ret_amended (e : Env) (obs d2 : List ℝ)
    (h : d2.length = e.dest_pos.length) :
    e.max_ret obs
        = 100 * Real.sqrt (((obs.take e.pos_size).map (fun x => x ^ 2)).sum)
      ∧ Env.max_ret ⟨d2⟩ obs = e.max_ret obs := by
  refine ⟨rfl, ?_⟩
  unfold Env.max_ret
  rw [show (⟨d2⟩ : Env).pos_size = e.pos_size from h]

/-- Witness for C7's amended statement at a concrete state. -/
theorem max_ret_amended_witness :
    Env.max_ret ⟨[5]⟩ [3]
        = 100 * Real.sqrt ((([(3 : ℝ)].take 1).map (fun x => x ^ 2)).sum)
      ∧ Env.max_ret ⟨[7]⟩ [3] = Env.max_ret ⟨[5]⟩ [3] := by
  have h := max_ret_amended ⟨[5]⟩ [3] [7] rfl
  exact ⟨h.1, h.2⟩

/-- C8 counterexample: an `act` transition leaves the step counter exactly
where it was (here 3) — it does not advance, refuting the claim that every
`act()` call mutates the step counter. -/
theorem actStep_counterexample :
    ((Env.actStep ⟨[0, 0]⟩ { obs := [0], step := 3 } [1]).1).step
      = ({ obs := [0], step := 3 } : EnvState).step := rfl

/-- C8 amended: the episode state is the last observation and the step
counter; `act()` updates the last observation to the new observation and
leaves the step counter unchanged, while `reset()` sets the step counter
to zero and the observation to the fresh initial observation. -/
theorem episode_state_mutation (e : Env) (s : EnvState) (nx fresh : List ℝ) :
    (e.actStep s nx).1.obs = nx
      ∧ (e.actStep s nx).1.step = s.step
      ∧ (Env.resetState fresh).step = 0
      ∧ (Env.resetState fresh).obs = fresh :=
  ⟨rfl, rfl, rfl, rfl⟩

end

end MOSAC
